import Mathlib

/-!
Shallow embedding of the `drasken-go-lexer` Go repository
(`src/lexer/lexer.go` and `src/lexer/token.go`).

Strings are modelled as `List Char` (the input is ASCII-range, one byte
per character, so Go's byte indexing coincides with character indexing).
Go's index-based scanning loops are translated into structural recursions
over list suffixes; the main scanning loops, whose cursors are genuinely
mutable state, are translated into well-founded recursions over the pair
(line index, column index).
-/

namespace Drasken

/-- From `isLetter` in src/lexer/lexer.go: A-Z or a-z. -/
def isLetter (ch : Char) : Bool :=
  decide (('a' ≤ ch ∧ ch ≤ 'z') ∨ ('A' ≤ ch ∧ ch ≤ 'Z'))

/-- From `isDigit` in src/lexer/lexer.go: 0-9. -/
def isDigit (ch : Char) : Bool :=
  decide ('0' ≤ ch ∧ ch ≤ '9')

/-- From `isOperator` in src/lexer/lexer.go. -/
def isOperator (ch : Char) : Bool :=
  decide (ch = '+' ∨ ch = '-' ∨ ch = '*' ∨ ch = '/' ∨ ch = '%' ∨ ch = '=' ∨
    ch = '<' ∨ ch = '>' ∨ ch = '!' ∨ ch = '&' ∨ ch = '|' ∨ ch = '^')

/-- From `isPunctuation` in src/lexer/lexer.go. -/
def isPunctuation (ch : Char) : Bool :=
  decide (ch = '.' ∨ ch = ',' ∨ ch = ';' ∨ ch = ':' ∨ ch = '(' ∨ ch = ')' ∨
    ch = '{' ∨ ch = '}' ∨ ch = '[' ∨ ch = ']')

/-- From `isUnderscore` in src/lexer/lexer.go. -/
def isUnderscore (ch : Char) : Bool :=
  decide (ch = '_')

/-- From `isWhitespace` in src/lexer/lexer.go: space, tab, newline, carriage return. -/
def isWhitespace (ch : Char) : Bool :=
  decide (ch = ' ' ∨ ch = '\t' ∨ ch = '\n' ∨ ch = '\r')

/-- From `isAlphanumericOrUnderscore` in src/lexer/lexer.go. -/
def isAlphanumericOrUnderscore (ch : Char) : Bool :=
  isLetter ch || isDigit ch || isUnderscore ch

/-- Go's `unicode.IsSpace` restricted to the ASCII range
(space, tab, newline, vertical tab, form feed, carriage return),
as used by `strings.TrimSpace`. -/
def isSpaceGo (ch : Char) : Bool :=
  decide (ch = ' ' ∨ ch = '\t' ∨ ch = '\n' ∨ ch = Char.ofNat 11 ∨
    ch = Char.ofNat 12 ∨ ch = '\r')

/-- Go `strings.TrimSpace`: drop leading and trailing whitespace. -/
def trimSpace (s : List Char) : List Char :=
  ((s.dropWhile isSpaceGo).reverse.dropWhile isSpaceGo).reverse

/-- Go `strings.Split(input, "\n")`: split on line feeds; always returns at
least one (possibly empty) line. -/
def splitOnNL : List Char → List (List Char)
  | [] => [[]]
  | c :: rest =>
    if c = '\n' then [] :: splitOnNL rest
    else
      match splitOnNL rest with
      | [] => [[c]]
      | l :: ls => (c :: l) :: ls

/-- `TokenType` from src/lexer/token.go.  The `STRING` constructor is the
raw-string kind used at src/lexer/lexer.go line 86; its declaration is not
among the given source files.  Modelled from the spec: the spec's closed
`TokenKind` enumeration lists `StringLiteral` as a kind distinct from all
others. -/
inductive TokenType where
  | ILLEGAL
  | EOF
  | IDENT
  | INT
  | ASSIGN
  | PLUS
  | MINUS
  | ASTERISK
  | SLASH
  | PERCENT
  | EQ
  | LT
  | GT
  | BANG
  | AND
  | OR
  | XOR
  | DOT
  | COMMA
  | SEMICOLON
  | COLON
  | LPAREN
  | RPAREN
  | LBRACE
  | RBRACE
  | LBRACKET
  | RBRACKET
  | STRING
deriving DecidableEq, Repr, BEq

/-- `Token` from src/lexer/token.go (the Go field `Type` is rendered
`type` because `Type` is reserved in Lean). -/
structure Token where
  type : TokenType
  literal : List Char
  Start : Nat
  End : Nat
  Line : Nat
deriving DecidableEq, Repr, BEq

/-- The case arms of the switch in `GenerateNewToken`
(src/lexer/token.go lines 96-140), in source order. -/
def symbolTable : List (List Char × TokenType) :=
  [(['+'], .PLUS), (['-'], .MINUS), (['*'], .ASTERISK), (['/'], .SLASH),
    (['%'], .PERCENT), (['='], .ASSIGN), (['=', '='], .EQ), (['<'], .LT),
    (['>'], .GT), (['!'], .BANG), (['&'], .AND), (['|'], .OR), (['^'], .XOR),
    (['.'], .DOT), ([','], .COMMA), ([';'], .SEMICOLON), ([':'], .COLON),
    (['('], .LPAREN), ([')'], .RPAREN), (['{'], .LBRACE), (['}'], .RBRACE),
    (['['], .LBRACKET), ([']'], .RBRACKET)]

/-- Sequential exact-match lookup, the semantics of a Go `switch` on a
string value. -/
def lookupTable : List (List Char × TokenType) → List Char → Option TokenType
  | [], _ => none
  | (s, k) :: rest, lit => if lit = s then some k else lookupTable rest lit

/-- The exact-match operator/punctuation switch of `GenerateNewToken`
(src/lexer/token.go lines 96-140): `none` means the `default` branch. -/
def symbolKind (literal : List Char) : Option TokenType :=
  lookupTable symbolTable literal

/-- The kind-determination logic of `GenerateNewToken`
(src/lexer/token.go lines 93-151): exact symbol match first, otherwise the
first character decides.  `none` models the Go panic `literal[0]` on an
empty literal in the default branch. -/
def classifyKind (literal : List Char) : Option TokenType :=
  match symbolKind literal with
  | some t => some t
  | none =>
    match literal with
    | [] => none
    | c :: _ =>
      some (if isDigit c then .INT
        else if isLetter c || isUnderscore c then .IDENT
        else .ILLEGAL)

/-- `GenerateNewToken` from src/lexer/token.go: classify the literal and
attach positional metadata.  `none` models the panic on an empty literal. -/
def GenerateNewToken (literal : List Char) (start stop line : Nat) : Option Token :=
  match classifyKind literal with
  | some t => some { type := t, literal := literal, Start := start, End := stop, Line := line }
  | none => none

/-- The quoted-string scan loop of `generateLiteral`
(src/lexer/lexer.go lines 128-136), over the rest of the line after the
opening quote: number of characters consumed (the closing quote, when
found, is consumed). -/
def quoteScanLen : List Char → Char → Nat
  | [], _ => 0
  | c :: rest, quote => if c = quote then 1 else 1 + quoteScanLen rest quote

/-- The numeric-literal scan loop of `generateLiteral`
(src/lexer/lexer.go lines 141-155): digits with at most one dot; a second
dot or a non-digit stops the scan. -/
def numScanLen : List Char → Bool → Nat
  | [], _ => 0
  | c :: rest, hasDot =>
    if c = '.' then
      if hasDot then 0 else 1 + numScanLen rest true
    else if isDigit c then 1 + numScanLen rest hasDot
    else 0

/-- The identifier scan loop of `generateLiteral`
(src/lexer/lexer.go lines 159-165): maximal run of letters, digits and
underscores. -/
def identScanLen : List Char → Nat
  | [] => 0
  | c :: rest => if isAlphanumericOrUnderscore c then 1 + identScanLen rest else 0

/-- `generateLiteral` from src/lexer/lexer.go (lines 121-188): extract the
next literal from `line` starting at column `start`, returning the literal
and the new column position.  Callers always supply `start < line.length`. -/
def generateLiteral (line : List Char) (start : Nat) : List Char × Nat :=
  if line.getD start ' ' = '"' ∨ line.getD start ' ' = '\'' then
    ((line.drop start).take (1 + quoteScanLen (line.drop (start + 1)) (line.getD start ' ')),
      start + 1 + quoteScanLen (line.drop (start + 1)) (line.getD start ' '))
  else if isDigit (line.getD start ' ') ||
      (decide (line.getD start ' ' = '.') && decide (start + 1 < line.length) &&
        isDigit (line.getD (start + 1) ' ')) then
    ((line.drop start).take (numScanLen (line.drop start) false),
      start + numScanLen (line.drop start) false)
  else if isLetter (line.getD start ' ') || isUnderscore (line.getD start ' ') then
    ((line.drop start).take (identScanLen (line.drop start)),
      start + identScanLen (line.drop start))
  else if isOperator (line.getD start ' ') then
    if decide (line.getD start ' ' = '=') && decide (start + 1 < line.length) &&
        decide (line.getD (start + 1) ' ' = '=') then
      (['=', '='], start + 2)
    else ([line.getD start ' '], start + 1)
  else if isPunctuation (line.getD start ' ') then ([line.getD start ' '], start + 1)
  else ([line.getD start ' '], start + 1)

/-- `shouldSkipLine` from src/lexer/lexer.go (lines 236-244): the trimmed
line starts with some configured comment prefix. -/
def shouldSkipLine (commentPrefixes : List (List Char)) (line : List Char) : Bool :=
  commentPrefixes.any (fun p => p.isPrefixOf (trimSpace line))

/-- The per-line portion of the backtick scan loop of `GenerateTokens`
(src/lexer/lexer.go lines 67-76): consume characters until a closing
backtick (consumed, terminating) or end of line.  Returns the consumed
characters, their count, and whether the string terminated. -/
def rawScanChars : List Char → List Char × Nat × Bool
  | [] => ([], 0, false)
  | c :: rest =>
    if c = '`' then (['`'], 1, true)
    else
      let r := rawScanChars rest
      (c :: r.1, r.2.1 + 1, r.2.2)

/-- One line of raw-string scanning starting at column `col`; returns the
consumed characters, the final column and the termination flag. -/
def rawScanFrom (line : List Char) (col : Nat) : List Char × Nat × Bool :=
  let r := rawScanChars (line.drop col)
  (r.1, col + r.2.1, r.2.2)

/-- The full backtick scan loop of `GenerateTokens`
(src/lexer/lexer.go lines 64-82), over the suffix of `lines` from index
`linePos`: on an unterminated line append a newline, advance the line
cursor and reset the column to 0.  Returns the consumed content (after
the opening backtick), the final line index and the final column. -/
def rawScanGo : List (List Char) → Nat → Nat → List Char × Nat × Nat
  | [], linePos, col => ([], linePos, col)
  | l :: ls, linePos, col =>
    let r := rawScanFrom l col
    if r.2.2 then (r.1, linePos, r.2.1)
    else
      let rest := rawScanGo ls (linePos + 1) 0
      (r.1 ++ '\n' :: rest.1, rest.2.1, rest.2.2)

/-- Raw-string scan in the coordinates of `GenerateTokens`: scan `lines`
starting at line `linePos`, column `col`. -/
def rawScan (lines : List (List Char)) (linePos col : Nat) : List Char × Nat × Nat :=
  rawScanGo (lines.drop linePos) linePos col

/-- The raw-string scan never moves the line cursor backwards. -/
theorem rawScanGo_linePos_le (ls : List (List Char)) (lp col : Nat) :
    lp ≤ (rawScanGo ls lp col).2.1 := by
  induction ls generalizing lp col with
  | nil => simp [rawScanGo]
  | cons l ls ih =>
    simp only [rawScanGo]
    split
    · exact Nat.le_refl lp
    · exact Nat.le_trans (Nat.le_succ lp) (ih (lp + 1) 0)

/-- If the raw-string scan stays on its starting line, the column does not
move backwards. -/
theorem rawScanGo_col_le (ls : List (List Char)) (lp col : Nat)
    (h : (rawScanGo ls lp col).2.1 = lp) : col ≤ (rawScanGo ls lp col).2.2 := by
  cases ls with
  | nil => simp [rawScanGo]
  | cons l ls =>
    simp only [rawScanGo, rawScanFrom] at h ⊢
    by_cases ht : (rawScanChars (List.drop col l)).2.2 = true
    · simp [ht]
    · simp only [Bool.not_eq_true] at ht
      simp [ht] at h
      exfalso
      have := rawScanGo_linePos_le ls (lp + 1) 0
      omega

/-- Starting the raw-string scan at or past the end of the line list leaves
the cursor unchanged. -/
theorem rawScan_stuck (lines : List (List Char)) (lp col : Nat)
    (h : lines.length ≤ lp) :
    (rawScan lines lp col).2.1 = lp ∧ (rawScan lines lp col).2.2 = col := by
  simp [rawScan, List.drop_eq_nil_of_le h, rawScanGo]

theorem rawScan_linePos_le (lines : List (List Char)) (lp col : Nat) :
    lp ≤ (rawScan lines lp col).2.1 :=
  rawScanGo_linePos_le _ lp col

theorem rawScan_col_le (lines : List (List Char)) (lp col : Nat)
    (h : (rawScan lines lp col).2.1 = lp) : col ≤ (rawScan lines lp col).2.2 :=
  rawScanGo_col_le _ lp col h

/-- The numeric scan consumes at least the first character when it is a
digit or a dot. -/
theorem numScanLen_pos (c : Char) (rest : List Char)
    (hcd : c = '.' ∨ isDigit c = true) : 1 ≤ numScanLen (c :: rest) false := by
  by_cases hp : c = '.'
  · simp [numScanLen, hp]
  · rcases hcd with hc | hc
    · exact absurd hc hp
    · simp [numScanLen, hp, hc]

/-- The identifier scan consumes at least the first character when it is a
letter, digit or underscore. -/
theorem identScanLen_pos (c : Char) (rest : List Char)
    (hc : isAlphanumericOrUnderscore c = true) : 1 ≤ identScanLen (c :: rest) := by
  simp [identScanLen, hc]

/-- `generateLiteral` always consumes at least one character when the
cursor is inside the line. -/
theorem generateLiteral_snd_lt (line : List Char) (start : Nat)
    (h : start < line.length) : start < (generateLiteral line start).2 := by
  have hdrop : line.drop start = line.getD start ' ' :: line.drop (start + 1) := by
    rw [List.getD_eq_getElem _ _ h, List.drop_eq_getElem_cons h]
  unfold generateLiteral
  split_ifs with h1 h2 h3 h4 h5 h6 <;> dsimp only <;> try omega
  · -- numeric branch
    rw [hdrop]
    have h1le : 1 ≤ numScanLen (line.getD start ' ' :: line.drop (start + 1)) false := by
      apply numScanLen_pos
      rcases Bool.or_eq_true_iff.mp h2 with hd | hdot
      · exact Or.inr hd
      · simp only [Bool.and_eq_true, decide_eq_true_eq] at hdot
        exact Or.inl hdot.1.1
    omega
  · -- identifier branch
    rw [hdrop]
    have h1le : 1 ≤ identScanLen (line.getD start ' ' :: line.drop (start + 1)) := by
      apply identScanLen_pos
      simp only [isAlphanumericOrUnderscore, Bool.or_eq_true]
      rcases Bool.or_eq_true_iff.mp h3 with hl | hu
      · exact Or.inl (Or.inl hl)
      · exact Or.inr hu
    omega

/-- `generateLiteral` never consumes past the '==' lookahead bound: the new
column is at most `line.length` when scanning starts inside the line. -/
theorem quoteScanLen_le (rest : List Char) (q : Char) :
    quoteScanLen rest q ≤ rest.length := by
  induction rest with
  | nil => simp [quoteScanLen]
  | cons c cs ih =>
    simp only [quoteScanLen, List.length_cons]
    split <;> omega

theorem numScanLen_le (rest : List Char) (b : Bool) :
    numScanLen rest b ≤ rest.length := by
  induction rest generalizing b with
  | nil => simp [numScanLen]
  | cons c cs ih =>
    simp only [numScanLen, List.length_cons]
    split
    · split
      · omega
      · have := ih true; omega
    · split
      · have := ih b; omega
      · omega

theorem identScanLen_le (rest : List Char) :
    identScanLen rest ≤ rest.length := by
  induction rest with
  | nil => simp [identScanLen]
  | cons c cs ih =>
    simp only [identScanLen, List.length_cons]
    split <;> omega

theorem generateLiteral_snd_le (line : List Char) (start : Nat)
    (h : start < line.length) : (generateLiteral line start).2 ≤ line.length := by
  unfold generateLiteral
  split_ifs with h1 h2 h3 h4 h5 h6 <;> dsimp only <;> try omega
  · have hq := quoteScanLen_le (line.drop (start + 1)) (line.getD start ' ')
    rw [List.length_drop] at hq
    omega
  · have hn := numScanLen_le (line.drop start) false
    rw [List.length_drop] at hn
    omega
  · have hi := identScanLen_le (line.drop start)
    rw [List.length_drop] at hi
    omega
  · simp only [Bool.and_eq_true, decide_eq_true_eq] at h5
    omega

/-- The inner scanning loop of `GenerateTokens`
(src/lexer/lexer.go lines 47-103): repeatedly skip whitespace, consume a
raw backtick string, or extract and classify one literal, until the column
cursor reaches the length of `line`.  Faithful to the Go code, `line` and
its length stay those of the line current when the loop was entered, even
when the backtick branch advances the line cursor (`linePos`); the `none`
arm of `GenerateNewToken` is unreachable because extracted literals are
non-empty. -/
def lineTokens (lines : List (List Char)) (line : List Char) (linePos col : Nat) :
    List Token × Nat × Nat :=
  if h : col < line.length then
    let ch := line.getD col ' '
    if isWhitespace ch then lineTokens lines line linePos (col + 1)
    else if ch = '`' then
      let r := rawScan lines linePos (col + 1)
      let tok : Token :=
        { type := .STRING, literal := '`' :: r.1,
          Start := col, End := r.2.2, Line := linePos }
      let rest := lineTokens lines line r.2.1 r.2.2
      (tok :: rest.1, rest.2.1, rest.2.2)
    else
      let g := generateLiteral line col
      let rest := lineTokens lines line linePos g.2
      if trimSpace g.1 ≠ [] then
        match GenerateNewToken g.1 col g.2 linePos with
        | some t => (t :: rest.1, rest.2.1, rest.2.2)
        | none => (rest.1, rest.2.1, rest.2.2)
      else (rest.1, rest.2.1, rest.2.2)
  else ([], linePos, col)
termination_by (lines.length - linePos, line.length - col)
decreasing_by
  · apply Prod.Lex.right
    omega
  · have hle := rawScan_linePos_le lines linePos (col + 1)
    rcases Nat.eq_or_lt_of_le hle with heq | hlt
    · rw [← heq]
      apply Prod.Lex.right
      have := rawScan_col_le lines linePos (col + 1) heq.symm
      omega
    · have hlen : linePos < lines.length := by
        by_contra hc
        have := (rawScan_stuck lines linePos (col + 1) (by omega)).1
        omega
      apply Prod.Lex.left
      omega
  · apply Prod.Lex.right
    have := generateLiteral_snd_lt line col h
    omega

/-- Unfolding lemma for `lineTokens`: the loop exits when the column
reaches the length of the entered line. -/
theorem lineTokens_exit (lines : List (List Char)) (line : List Char) (lp col : Nat)
    (h : ¬ col < line.length) : lineTokens lines line lp col = ([], lp, col) := by
  conv_lhs => rw [lineTokens.eq_def]
  rw [dif_neg h]

/-- Unfolding lemma for `lineTokens`: whitespace is skipped. -/
theorem lineTokens_ws (lines : List (List Char)) (line : List Char) (lp col : Nat)
    (h : col < line.length) (hws : isWhitespace (line.getD col ' ') = true) :
    lineTokens lines line lp col = lineTokens lines line lp (col + 1) := by
  conv_lhs => rw [lineTokens.eq_def]
  rw [dif_pos h]
  dsimp only
  rw [if_pos hws]

/-- Unfolding lemma for `lineTokens`: the backtick branch. -/
theorem lineTokens_tick (lines : List (List Char)) (line : List Char) (lp col : Nat)
    (h : col < line.length) (htick : line.getD col ' ' = '`') :
    lineTokens lines line lp col =
      (({ type := .STRING, literal := '`' :: (rawScan lines lp (col + 1)).1,
          Start := col, End := (rawScan lines lp (col + 1)).2.2, Line := lp } : Token)
          :: (lineTokens lines line (rawScan lines lp (col + 1)).2.1
              (rawScan lines lp (col + 1)).2.2).1,
        (lineTokens lines line (rawScan lines lp (col + 1)).2.1
          (rawScan lines lp (col + 1)).2.2).2) := by
  have hws : ¬ isWhitespace (line.getD col ' ') = true := by
    rw [htick]
    decide
  conv_lhs => rw [lineTokens.eq_def]
  rw [dif_pos h]
  dsimp only
  rw [if_neg hws, if_pos htick]

/-- Unfolding lemma for `lineTokens`: the literal-extraction branch. -/
theorem lineTokens_lit (lines : List (List Char)) (line : List Char) (lp col : Nat)
    (h : col < line.length) (hws : ¬ isWhitespace (line.getD col ' ') = true)
    (htick : ¬ line.getD col ' ' = '`') :
    lineTokens lines line lp col =
      if trimSpace (generateLiteral line col).1 ≠ [] then
        match GenerateNewToken (generateLiteral line col).1 col
            (generateLiteral line col).2 lp with
        | some t =>
          (t :: (lineTokens lines line lp (generateLiteral line col).2).1,
            (lineTokens lines line lp (generateLiteral line col).2).2)
        | none => lineTokens lines line lp (generateLiteral line col).2
      else lineTokens lines line lp (generateLiteral line col).2 := by
  conv_lhs => rw [lineTokens.eq_def]
  rw [dif_pos h]
  dsimp only
  rw [if_neg hws, if_neg htick]

/-- The inner loop never moves the line cursor backwards. -/
theorem lineTokens_linePos_le (lines : List (List Char)) (line : List Char)
    (linePos col : Nat) : linePos ≤ (lineTokens lines line linePos col).2.1 := by
  induction linePos, col using lineTokens.induct lines line with
  | case1 lp col hlt ch hws ih =>
    have hws' : isWhitespace (line.getD col ' ') = true := hws
    rw [lineTokens_ws lines line lp col hlt hws']
    exact ih
  | case2 lp col hlt ch hws htick r ih =>
    have htick' : line.getD col ' ' = '`' := htick
    rw [lineTokens_tick lines line lp col hlt htick']
    have h1 := rawScan_linePos_le lines lp (col + 1)
    exact Nat.le_trans h1 ih
  | case3 lp col hlt ch hws htick g htrim t hsome ih =>
    have hws' : ¬ isWhitespace (line.getD col ' ') = true := hws
    have htick' : ¬ line.getD col ' ' = '`' := htick
    have htrim' : trimSpace (generateLiteral line col).1 ≠ [] := htrim
    have hsome' : GenerateNewToken (generateLiteral line col).1 col
        (generateLiteral line col).2 lp = some t := hsome
    rw [lineTokens_lit lines line lp col hlt hws' htick', if_pos htrim', hsome']
    exact ih
  | case4 lp col hlt ch hws htick g htrim hnone ih =>
    have hws' : ¬ isWhitespace (line.getD col ' ') = true := hws
    have htick' : ¬ line.getD col ' ' = '`' := htick
    have htrim' : trimSpace (generateLiteral line col).1 ≠ [] := htrim
    have hnone' : GenerateNewToken (generateLiteral line col).1 col
        (generateLiteral line col).2 lp = none := hnone
    rw [lineTokens_lit lines line lp col hlt hws' htick', if_pos htrim', hnone']
    exact ih
  | case5 lp col hlt ch hws htick g htrim ih =>
    have hws' : ¬ isWhitespace (line.getD col ' ') = true := hws
    have htick' : ¬ line.getD col ' ' = '`' := htick
    have htrim' : ¬ trimSpace (generateLiteral line col).1 ≠ [] := htrim
    rw [lineTokens_lit lines line lp col hlt hws' htick', if_neg htrim']
    exact ih
  | case6 lp col hlt =>
    rw [lineTokens_exit lines line lp col hlt]

/-- The outer line loop of `GenerateTokens`
(src/lexer/lexer.go lines 35-105): skip comment lines, otherwise run the
inner loop on the current line with the column reset to 0, then advance
the line cursor past the line the inner loop finished on. -/
def scanLines (commentPrefixes : List (List Char)) (lines : List (List Char))
    (linePos col : Nat) : List Token × Nat × Nat :=
  if h : linePos < lines.length then
    if shouldSkipLine commentPrefixes (lines.getD linePos []) then
      scanLines commentPrefixes lines (linePos + 1) col
    else
      let r := lineTokens lines (lines.getD linePos []) linePos 0
      let rest := scanLines commentPrefixes lines (r.2.1 + 1) r.2.2
      (r.1 ++ rest.1, rest.2.1, rest.2.2)
  else ([], linePos, col)
termination_by lines.length - linePos
decreasing_by
  · omega
  · have := lineTokens_linePos_le lines (lines.getD linePos []) linePos 0
    omega

/-- `GenerateTokens` from src/lexer/lexer.go (lines 32-117): split the
input on line feeds, scan all lines starting from line 0 (the struct's
zero-valued cursors), and append the terminal EOF token at the final
cursor position. -/
def GenerateTokens (input : List Char) (commentPrefixes : List (List Char)) : List Token :=
  let r := scanLines commentPrefixes (splitOnNL input) 0 0
  r.1 ++ [{ type := .EOF, literal := [], Start := r.2.2, End := r.2.2, Line := r.2.1 }]

/-- A successful table lookup returns a pair of the table. -/
theorem lookupTable_mem (tbl : List (List Char × TokenType)) (lit : List Char)
    (k : TokenType) (h : lookupTable tbl lit = some k) : (lit, k) ∈ tbl := by
  induction tbl with
  | nil => simp [lookupTable] at h
  | cons p rest ih =>
    obtain ⟨s, k0⟩ := p
    simp only [lookupTable] at h
    by_cases hl : lit = s
    · rw [if_pos hl] at h
      injection h with h2
      subst h2
      subst hl
      exact List.mem_cons_self _ _
    · rw [if_neg hl] at h
      exact List.mem_cons_of_mem _ (ih h)

/-- The symbol table never yields the EOF or raw-string kinds. -/
theorem symbolKind_ne (lit : List Char) (k : TokenType) (h : symbolKind lit = some k) :
    k ≠ .EOF ∧ k ≠ .STRING := by
  have hmem := lookupTable_mem symbolTable lit k h
  have hall : ∀ p ∈ symbolTable, p.2 ≠ .EOF ∧ p.2 ≠ .STRING := by
    intro p hp
    fin_cases hp <;> exact ⟨by decide, by decide⟩
  exact hall (lit, k) hmem

/-- The classifier never yields the EOF or raw-string kinds. -/
theorem classifyKind_ne (lit : List Char) (k : TokenType) (h : classifyKind lit = some k) :
    k ≠ .EOF ∧ k ≠ .STRING := by
  unfold classifyKind at h
  cases hs : symbolKind lit with
  | some t =>
    rw [hs] at h
    simp only [Option.some.injEq] at h
    subst h
    exact symbolKind_ne lit t hs
  | none =>
    rw [hs] at h
    cases lit with
    | nil => simp at h
    | cons c cs =>
      simp only [Option.some.injEq] at h
      subst h
      split_ifs <;> simp

/-- Inversion for a successful `GenerateNewToken` call. -/
theorem GenerateNewToken_some (lit : List Char) (s e l : Nat) (t : Token)
    (h : GenerateNewToken lit s e l = some t) :
    classifyKind lit = some t.type ∧ t.literal = lit ∧
      t.Start = s ∧ t.End = e ∧ t.Line = l := by
  unfold GenerateNewToken at h
  cases hk : classifyKind lit with
  | none => rw [hk] at h; simp at h
  | some k =>
    rw [hk] at h
    simp only [Option.some.injEq] at h
    subst h
    exact ⟨rfl, rfl, rfl, rfl, rfl⟩

/-- Taking a positive number of elements from a non-empty list is
non-empty. -/
theorem take_cons_ne_nil (n : Nat) (c : Char) (rest : List Char) (h : 1 ≤ n) :
    (c :: rest).take n ≠ [] := by
  cases n with
  | zero => omega
  | succ m => simp [List.take_succ_cons]

/-- The extracted literal is never empty when extraction starts inside the
line. -/
theorem generateLiteral_fst_ne_nil (line : List Char) (col : Nat)
    (h : col < line.length) : (generateLiteral line col).1 ≠ [] := by
  have hdrop : line.drop col = line.getD col ' ' :: line.drop (col + 1) := by
    rw [List.getD_eq_getElem _ _ h, List.drop_eq_getElem_cons h]
  unfold generateLiteral
  split_ifs with h1 h2 h3 h4 h5 h6 <;> dsimp only
  · rw [hdrop]
    exact take_cons_ne_nil _ _ _ (by omega)
  · rw [hdrop]
    have h1le : 1 ≤ numScanLen (line.getD col ' ' :: line.drop (col + 1)) false := by
      apply numScanLen_pos
      rcases Bool.or_eq_true_iff.mp h2 with hd | hdot
      · exact Or.inr hd
      · simp only [Bool.and_eq_true, decide_eq_true_eq] at hdot
        exact Or.inl hdot.1.1
    exact take_cons_ne_nil _ _ _ h1le
  · rw [hdrop]
    have h1le : 1 ≤ identScanLen (line.getD col ' ' :: line.drop (col + 1)) := by
      apply identScanLen_pos
      simp only [isAlphanumericOrUnderscore, Bool.or_eq_true]
      rcases Bool.or_eq_true_iff.mp h3 with hl | hu
      · exact Or.inl (Or.inl hl)
      · exact Or.inr hu
    exact take_cons_ne_nil _ _ _ h1le
  all_goals simp

/-- Soundness of the inner loop: every produced token is a raw-string
token or a classified token whose kind agrees with the classifier and
whose half-open span is non-degenerate; no produced token is EOF. -/
theorem lineTokens_sound (lines : List (List Char)) (line : List Char)
    (linePos col : Nat) :
    ∀ t ∈ (lineTokens lines line linePos col).1,
      t.type ≠ .EOF ∧
        (t.type = .STRING ∨
          (classifyKind t.literal = some t.type ∧ t.Start < t.End)) := by
  induction linePos, col using lineTokens.induct lines line with
  | case1 lp col hlt ch hws ih =>
    have hws' : isWhitespace (line.getD col ' ') = true := hws
    rw [lineTokens_ws lines line lp col hlt hws']
    exact ih
  | case2 lp col hlt ch hws htick r ih =>
    have htick' : line.getD col ' ' = '`' := htick
    rw [lineTokens_tick lines line lp col hlt htick']
    intro t ht
    rcases List.mem_cons.mp ht with hh | hh
    · subst hh
      exact ⟨by simp, Or.inl rfl⟩
    · exact ih t hh
  | case3 lp col hlt ch hws htick g htrim t0 hsome ih =>
    have hws' : ¬ isWhitespace (line.getD col ' ') = true := hws
    have htick' : ¬ line.getD col ' ' = '`' := htick
    have htrim' : trimSpace (generateLiteral line col).1 ≠ [] := htrim
    have hsome' : GenerateNewToken (generateLiteral line col).1 col
        (generateLiteral line col).2 lp = some t0 := hsome
    rw [lineTokens_lit lines line lp col hlt hws' htick', if_pos htrim', hsome']
    intro t ht
    rcases List.mem_cons.mp ht with hh | hh
    · subst hh
      obtain ⟨hcl, hlit, hs, he, hl⟩ := GenerateNewToken_some _ _ _ _ _ hsome'
      have hcl' : classifyKind t.literal = some t.type := by
        rw [hlit]
        exact hcl
      refine ⟨(classifyKind_ne _ _ hcl').1, Or.inr ⟨hcl', ?_⟩⟩
      rw [hs, he]
      exact generateLiteral_snd_lt line col hlt
    · exact ih t hh
  | case4 lp col hlt ch hws htick g htrim hnone ih =>
    have hws' : ¬ isWhitespace (line.getD col ' ') = true := hws
    have htick' : ¬ line.getD col ' ' = '`' := htick
    have htrim' : trimSpace (generateLiteral line col).1 ≠ [] := htrim
    have hnone' : GenerateNewToken (generateLiteral line col).1 col
        (generateLiteral line col).2 lp = none := hnone
    rw [lineTokens_lit lines line lp col hlt hws' htick', if_pos htrim', hnone']
    exact ih
  | case5 lp col hlt ch hws htick g htrim ih =>
    have hws' : ¬ isWhitespace (line.getD col ' ') = true := hws
    have htick' : ¬ line.getD col ' ' = '`' := htick
    have htrim' : ¬ trimSpace (generateLiteral line col).1 ≠ [] := htrim
    rw [lineTokens_lit lines line lp col hlt hws' htick', if_neg htrim']
    exact ih
  | case6 lp col hlt =>
    rw [lineTokens_exit lines line lp col hlt]
    intro t ht
    simp at ht

/-- Unfolding lemma for `scanLines`: the loop exits past the last line. -/
theorem scanLines_exit (cps lines : List (List Char)) (lp col : Nat)
    (h : ¬ lp < lines.length) : scanLines cps lines lp col = ([], lp, col) := by
  conv_lhs => rw [scanLines.eq_def]
  rw [dif_neg h]

/-- Unfolding lemma for `scanLines`: a comment line is skipped whole. -/
theorem scanLines_skip (cps lines : List (List Char)) (lp col : Nat)
    (h : lp < lines.length)
    (hs : shouldSkipLine cps (lines.getD lp []) = true) :
    scanLines cps lines lp col = scanLines cps lines (lp + 1) col := by
  conv_lhs => rw [scanLines.eq_def]
  rw [dif_pos h]
  dsimp only
  rw [if_pos hs]

/-- Unfolding lemma for `scanLines`: a non-comment line is scanned by the
inner loop and the line cursor then advances past the line the inner loop
finished on. -/
theorem scanLines_go (cps lines : List (List Char)) (lp col : Nat)
    (h : lp < lines.length)
    (hs : ¬ shouldSkipLine cps (lines.getD lp []) = true) :
    scanLines cps lines lp col =
      ((lineTokens lines (lines.getD lp []) lp 0).1 ++
        (scanLines cps lines ((lineTokens lines (lines.getD lp []) lp 0).2.1 + 1)
          (lineTokens lines (lines.getD lp []) lp 0).2.2).1,
        (scanLines cps lines ((lineTokens lines (lines.getD lp []) lp 0).2.1 + 1)
          (lineTokens lines (lines.getD lp []) lp 0).2.2).2) := by
  conv_lhs => rw [scanLines.eq_def]
  rw [dif_pos h]
  dsimp only
  rw [if_neg hs]

/-- Soundness of the outer loop: all tokens collected over all lines
satisfy the per-token invariant. -/
theorem scanLines_sound (cps lines : List (List Char)) (lp col : Nat) :
    ∀ t ∈ (scanLines cps lines lp col).1,
      t.type ≠ .EOF ∧
        (t.type = .STRING ∨
          (classifyKind t.literal = some t.type ∧ t.Start < t.End)) := by
  induction lp, col using scanLines.induct cps lines with
  | case1 lp col hlt hskip ih =>
    rw [scanLines_skip cps lines lp col hlt hskip]
    exact ih
  | case2 lp col hlt hskip r ih =>
    rw [scanLines_go cps lines lp col hlt hskip]
    intro t ht
    rcases List.mem_append.mp ht with hh | hh
    · exact lineTokens_sound lines (lines.getD lp []) lp 0 t hh
    · exact ih t hh
  | case3 lp col hlt =>
    rw [scanLines_exit cps lines lp col hlt]
    intro t ht
    simp at ht

/-- `GenerateTokens` unfolded: the scanned tokens followed by the EOF
token at the final cursor position. -/
theorem GenerateTokens_eq (input : List Char) (cps : List (List Char)) :
    GenerateTokens input cps =
      (scanLines cps (splitOnNL input) 0 0).1 ++
        [{ type := .EOF, literal := [],
           Start := (scanLines cps (splitOnNL input) 0 0).2.2,
           End := (scanLines cps (splitOnNL input) 0 0).2.2,
           Line := (scanLines cps (splitOnNL input) 0 0).2.1 }] := rfl

/-- A line of pure whitespace contributes no tokens. -/
theorem lineTokens_all_ws (lines : List (List Char)) (line : List Char)
    (linePos col : Nat) (hall : ∀ ch ∈ line, isWhitespace ch = true) :
    (lineTokens lines line linePos col).1 = [] := by
  induction linePos, col using lineTokens.induct lines line with
  | case1 lp col hlt ch hws ih =>
    have hws' : isWhitespace (line.getD col ' ') = true := hws
    rw [lineTokens_ws lines line lp col hlt hws']
    exact ih
  | case2 lp col hlt ch hws htick r ih =>
    exfalso
    have hmem : line.getD col ' ' ∈ line := by
      rw [List.getD_eq_getElem _ _ hlt]
      exact List.getElem_mem hlt
    have hit := hall _ hmem
    have htick' : line.getD col ' ' = '`' := htick
    rw [htick'] at hit
    exact absurd hit (by decide)
  | case3 lp col hlt ch hws htick g htrim t0 hsome ih =>
    exfalso
    have hmem : line.getD col ' ' ∈ line := by
      rw [List.getD_eq_getElem _ _ hlt]
      exact List.getElem_mem hlt
    exact hws (hall _ hmem)
  | case4 lp col hlt ch hws htick g htrim hnone ih =>
    exfalso
    have hmem : line.getD col ' ' ∈ line := by
      rw [List.getD_eq_getElem _ _ hlt]
      exact List.getElem_mem hlt
    exact hws (hall _ hmem)
  | case5 lp col hlt ch hws htick g htrim ih =>
    exfalso
    have hmem : line.getD col ' ' ∈ line := by
      rw [List.getD_eq_getElem _ _ hlt]
      exact List.getElem_mem hlt
    exact hws (hall _ hmem)
  | case6 lp col hlt =>
    rw [lineTokens_exit lines line lp col hlt]

/-- When the closing quote never occurs, the quote scan consumes the whole
rest of the line. -/
theorem quoteScanLen_all (rest : List Char) (q : Char) (h : q ∉ rest) :
    quoteScanLen rest q = rest.length := by
  induction rest with
  | nil => rfl
  | cons c cs ih =>
    have hne : ¬ c = q := fun hc => h (hc ▸ List.mem_cons_self c cs)
    simp only [quoteScanLen, if_neg hne, List.length_cons]
    rw [ih (fun hm => h (List.mem_cons_of_mem c hm))]
    omega


/-- Fuel-indexed structural mirror of `lineTokens`, used to evaluate the
well-founded scanning loop on concrete inputs by kernel reduction; `none`
means the fuel ran out. -/
def lineTokensF : Nat → List (List Char) → List Char → Nat → Nat →
    Option (List Token × Nat × Nat)
  | 0, _, _, _, _ => none
  | fuel + 1, lines, line, linePos, col =>
    if col < line.length then
      if isWhitespace (line.getD col ' ') then
        lineTokensF fuel lines line linePos (col + 1)
      else if line.getD col ' ' = '`' then
        match lineTokensF fuel lines line (rawScan lines linePos (col + 1)).2.1
            (rawScan lines linePos (col + 1)).2.2 with
        | some rest =>
          some
            (({ type := .STRING, literal := '`' :: (rawScan lines linePos (col + 1)).1,
                Start := col, End := (rawScan lines linePos (col + 1)).2.2,
                Line := linePos } : Token) :: rest.1, rest.2)
        | none => none
      else
        match lineTokensF fuel lines line linePos (generateLiteral line col).2 with
        | some rest =>
          if trimSpace (generateLiteral line col).1 ≠ [] then
            match GenerateNewToken (generateLiteral line col).1 col
                (generateLiteral line col).2 linePos with
            | some t => some (t :: rest.1, rest.2)
            | none => some rest
          else some rest
        | none => none
    else some ([], linePos, col)

/-- Fuel-indexed structural mirror of `scanLines`. -/
def scanLinesF : Nat → List (List Char) → List (List Char) → Nat → Nat →
    Option (List Token × Nat × Nat)
  | 0, _, _, _, _ => none
  | fuel + 1, cps, lines, lp, col =>
    if lp < lines.length then
      if shouldSkipLine cps (lines.getD lp []) then
        scanLinesF fuel cps lines (lp + 1) col
      else
        match lineTokensF (fuel + 1) lines (lines.getD lp []) lp 0 with
        | some r =>
          match scanLinesF fuel cps lines (r.2.1 + 1) r.2.2 with
          | some rest => some (r.1 ++ rest.1, rest.2)
          | none => none
        | none => none
    else some ([], lp, col)

/-- Fuel-indexed structural mirror of `GenerateTokens`. -/
def GenerateTokensF (fuel : Nat) (input : List Char) (cps : List (List Char)) :
    Option (List Token) :=
  match scanLinesF fuel cps (splitOnNL input) 0 0 with
  | some r =>
    some
      (r.1 ++
        [{ type := .EOF, literal := [], Start := r.2.2, End := r.2.2,
           Line := r.2.1 }])
  | none => none

/-- A successful fuel-bounded run computes `lineTokens`. -/
theorem lineTokensF_sound : ∀ (fuel : Nat) (lines : List (List Char))
    (line : List Char) (lp col : Nat) (r : List Token × Nat × Nat),
    lineTokensF fuel lines line lp col = some r →
    lineTokens lines line lp col = r := by
  intro fuel
  induction fuel with
  | zero =>
    intro lines line lp col r h
    simp [lineTokensF] at h
  | succ n ih =>
    intro lines line lp col r h
    by_cases hlt : col < line.length
    · rw [lineTokensF, if_pos hlt] at h
      by_cases hws : isWhitespace (line.getD col ' ') = true
      · rw [if_pos hws] at h
        rw [lineTokens_ws lines line lp col hlt hws]
        exact ih lines line lp (col + 1) r h
      · rw [if_neg hws] at h
        by_cases htick : line.getD col ' ' = '`'
        · rw [if_pos htick] at h
          cases hrec : lineTokensF n lines line (rawScan lines lp (col + 1)).2.1
              (rawScan lines lp (col + 1)).2.2 with
          | none => rw [hrec] at h; exact absurd h (by simp)
          | some rest =>
            rw [hrec] at h
            simp only [Option.some.injEq] at h
            rw [lineTokens_tick lines line lp col hlt htick,
              ih lines line _ _ rest hrec]
            exact h
        · rw [if_neg htick] at h
          cases hrec : lineTokensF n lines line lp (generateLiteral line col).2 with
          | none => rw [hrec] at h; exact absurd h (by simp)
          | some rest =>
            rw [hrec] at h
            dsimp only at h
            rw [lineTokens_lit lines line lp col hlt hws htick,
              ih lines line lp _ rest hrec]
            by_cases htrim : trimSpace (generateLiteral line col).1 ≠ []
            · rw [if_pos htrim] at h ⊢
              cases hg : GenerateNewToken (generateLiteral line col).1 col
                  (generateLiteral line col).2 lp with
              | none =>
                try rw [hg] at h
                try rw [hg]
                dsimp only at h ⊢
                try simp only [Option.some.injEq] at h
                exact h
              | some t =>
                try rw [hg] at h
                try rw [hg]
                dsimp only at h ⊢
                try simp only [Option.some.injEq] at h
                exact h
            · rw [if_neg htrim] at h ⊢
              simp only [Option.some.injEq] at h
              exact h
    · rw [lineTokensF, if_neg hlt] at h
      simp only [Option.some.injEq] at h
      rw [lineTokens_exit lines line lp col hlt]
      exact h

/-- A successful fuel-bounded run computes `scanLines`. -/
theorem scanLinesF_sound : ∀ (fuel : Nat) (cps lines : List (List Char))
    (lp col : Nat) (r : List Token × Nat × Nat),
    scanLinesF fuel cps lines lp col = some r →
    scanLines cps lines lp col = r := by
  intro fuel
  induction fuel with
  | zero =>
    intro cps lines lp col r h
    simp [scanLinesF] at h
  | succ n ih =>
    intro cps lines lp col r h
    by_cases hlt : lp < lines.length
    · rw [scanLinesF, if_pos hlt] at h
      by_cases hskip : shouldSkipLine cps (lines.getD lp []) = true
      · rw [if_pos hskip] at h
        rw [scanLines_skip cps lines lp col hlt hskip]
        exact ih cps lines (lp + 1) col r h
      · rw [if_neg hskip] at h
        cases hline : lineTokensF (n + 1) lines (lines.getD lp []) lp 0 with
        | none => rw [hline] at h; exact absurd h (by simp)
        | some rl =>
          rw [hline] at h
          dsimp only at h
          cases hrec : scanLinesF n cps lines (rl.2.1 + 1) rl.2.2 with
          | none =>
            try rw [hrec] at h
            dsimp only at h
            exact absurd h (by simp)
          | some rest =>
            try rw [hrec] at h
            dsimp only at h
            try simp only [Option.some.injEq] at h
            rw [scanLines_go cps lines lp col hlt hskip,
              lineTokensF_sound (n + 1) lines (lines.getD lp []) lp 0 rl hline,
              ih cps lines (rl.2.1 + 1) rl.2.2 rest hrec]
            exact h
    · rw [scanLinesF, if_neg hlt] at h
      simp only [Option.some.injEq] at h
      rw [scanLines_exit cps lines lp col hlt]
      exact h

/-- A successful fuel-bounded run computes `GenerateTokens`. -/
theorem GenerateTokensF_sound (fuel : Nat) (input : List Char)
    (cps : List (List Char)) (out : List Token)
    (h : GenerateTokensF fuel input cps = some out) :
    GenerateTokens input cps = out := by
  unfold GenerateTokensF at h
  cases hs : scanLinesF fuel cps (splitOnNL input) 0 0 with
  | none => rw [hs] at h; exact absurd h (by simp)
  | some r =>
    rw [hs] at h
    simp only [Option.some.injEq] at h
    rw [GenerateTokens_eq, scanLinesF_sound fuel cps (splitOnNL input) 0 0 r hs]
    exact h



/-- Concrete run: the input `"@"`. -/
theorem eval_atSign :
    GenerateTokens ['@'] [] =
      [{ type := .ILLEGAL, literal := ['@'], Start := 0, End := 1, Line := 0 },
        { type := .EOF, literal := [], Start := 1, End := 1, Line := 1 }] :=
  GenerateTokensF_sound 8 _ _ _ rfl

/-- Concrete run: a single-line raw string. -/
theorem eval_raw_single :
    GenerateTokens ['`', 'a', '`'] [] =
      [{ type := .STRING, literal := ['`', 'a', '`'], Start := 0, End := 3, Line := 0 },
        { type := .EOF, literal := [], Start := 3, End := 3, Line := 1 }] :=
  GenerateTokensF_sound 8 _ _ _ rfl

/-- Concrete run: a raw string whose closing backtick sits on the second
line; its End column (1) is smaller than its Start column (3). -/
theorem eval_ab_tick :
    GenerateTokens ['a', 'b', ' ', '`', '\n', '`'] [] =
      [{ type := .IDENT, literal := ['a', 'b'], Start := 0, End := 2, Line := 0 },
        { type := .STRING, literal := ['`', '\n', '`'], Start := 3, End := 1, Line := 0 },
        { type := .IDENT, literal := ['b'], Start := 1, End := 2, Line := 1 },
        { type := .STRING, literal := ['`', '\n'], Start := 3, End := 0, Line := 1 },
        { type := .IDENT, literal := ['a', 'b'], Start := 0, End := 2, Line := 2 },
        { type := .STRING, literal := ['`'], Start := 3, End := 4, Line := 2 },
        { type := .EOF, literal := [], Start := 4, End := 4, Line := 3 }] :=
  GenerateTokensF_sound 16 _ _ _ rfl

/-- Concrete run: after the multi-line raw string ends on line 1 at
column 1, scanning resumes on the stale first line, so the characters
`x`, `y`, `z` after the closing backtick are never tokenized. -/
theorem eval_dropx :
    GenerateTokens ['`', 'a', '\n', '`', 'x', 'y', 'z'] [] =
      [{ type := .STRING, literal := ['`', 'a', '\n', '`'], Start := 0, End := 1, Line := 0 },
        { type := .IDENT, literal := ['a'], Start := 1, End := 2, Line := 1 },
        { type := .EOF, literal := [], Start := 2, End := 2, Line := 2 }] :=
  GenerateTokensF_sound 8 _ _ _ rfl

/-- Concrete run: a raw string spanning two lines, opened on line 0. -/
theorem eval_raw_span :
    GenerateTokens ['`', 'a', '\n', 'b', '`'] [] =
      [{ type := .STRING, literal := ['`', 'a', '\n', 'b', '`'], Start := 0, End := 2, Line := 0 },
        { type := .EOF, literal := [], Start := 2, End := 2, Line := 2 }] :=
  GenerateTokensF_sound 8 _ _ _ rfl


/-- C1: For every input string and every comment-prefix list,
`GenerateTokens` returns a non-empty token sequence, its last token has
kind EOF with empty literal, that token is the only EOF token in the
sequence, and the operation is a total function (it never fails). -/
theorem generateTokens_eof_contract (input : List Char)
    (commentPrefixes : List (List Char)) :
    GenerateTokens input commentPrefixes ≠ [] ∧
    (∃ t, (GenerateTokens input commentPrefixes).getLast? = some t ∧
      t.type = .EOF ∧ t.literal = []) ∧
    (GenerateTokens input commentPrefixes).countP
      (fun t => decide (t.type = TokenType.EOF)) = 1 := by
  rw [GenerateTokens_eq]
  refine ⟨by simp, ⟨_, List.getLast?_concat _, rfl, rfl⟩, ?_⟩
  rw [List.countP_append]
  have h0 : (scanLines commentPrefixes (splitOnNL input) 0 0).1.countP
      (fun t => decide (t.type = TokenType.EOF)) = 0 := by
    rw [List.countP_eq_zero]
    intro t ht
    have hne := (scanLines_sound _ _ 0 0 t ht).1
    simp [hne]
  rw [h0]
  simp [List.countP_cons]

/-- C1, witness: the contract instantiated on the input `"@"`. -/
theorem generateTokens_eof_contract_witness :
    GenerateTokens ['@'] [] ≠ [] ∧
    (∃ t, (GenerateTokens ['@'] []).getLast? = some t ∧
      t.type = .EOF ∧ t.literal = []) ∧
    (GenerateTokens ['@'] []).countP
      (fun t => decide (t.type = TokenType.EOF)) = 1 :=
  generateTokens_eof_contract ['@'] []

/-- C4, counterexample: on the input `"ab \u0060\n\u0060"` the raw-string
token closing on line 1 has End = 1 < 3 = Start, although it is not the
terminal EOF token. -/
theorem generateTokens_span_cex :
    ∃ t ∈ GenerateTokens ['a', 'b', ' ', '`', '\n', '`'] [],
      t.type ≠ .EOF ∧ t.End < t.Start := by
  refine ⟨{ type := .STRING, literal := ['`', '\n', '`'], Start := 3, End := 1, Line := 0 },
    ?_, by decide, by decide⟩
  rw [eval_ab_tick]
  simp

/-- C4, amended: every token that is not a raw-string (backtick) token
satisfies End >= Start; a raw-string token may violate this when its
closing backtick lies on a later line.  The terminal token is the EOF
token, with Start = End and empty literal. -/
theorem generateTokens_span (input : List Char)
    (commentPrefixes : List (List Char)) :
    (∀ t ∈ GenerateTokens input commentPrefixes,
      t.type = .STRING ∨ t.Start ≤ t.End) ∧
    (∃ t, (GenerateTokens input commentPrefixes).getLast? = some t ∧
      t.type = .EOF ∧ t.Start = t.End ∧ t.literal = []) := by
  rw [GenerateTokens_eq]
  constructor
  · intro t ht
    rcases List.mem_append.mp ht with hh | hh
    · rcases (scanLines_sound _ _ 0 0 t hh).2 with hstr | ⟨_, hlt⟩
      · exact Or.inl hstr
      · exact Or.inr (Nat.le_of_lt hlt)
    · simp only [List.mem_singleton] at hh
      subst hh
      exact Or.inr (Nat.le_refl _)
  · exact ⟨_, List.getLast?_concat _, rfl, rfl, rfl⟩

/-- C4, witness: the amended theorem applied to the `Illegal` token of the
run on `"@"`. -/
theorem generateTokens_span_witness :
    ({ type := .ILLEGAL, literal := ['@'], Start := 0, End := 1, Line := 0 } : Token).type =
      .STRING ∨
    ({ type := .ILLEGAL, literal := ['@'], Start := 0, End := 1, Line := 0 } : Token).Start ≤
      ({ type := .ILLEGAL, literal := ['@'], Start := 0, End := 1, Line := 0 } : Token).End := by
  apply (generateTokens_span ['@'] []).1
  rw [eval_atSign]
  simp

/-- C5, counterexample: on the input `"\u0060a\u0060"` the raw-string token
stores kind `STRING`, but reclassifying its literal yields `ILLEGAL`
(the classifier has no raw-string case and decides by the leading
backtick). -/
theorem classify_idempotent_cex :
    ∃ t ∈ GenerateTokens ['`', 'a', '`'] [],
      classifyKind t.literal ≠ some t.type := by
  refine ⟨{ type := .STRING, literal := ['`', 'a', '`'], Start := 0, End := 3, Line := 0 },
    ?_, by decide⟩
  rw [eval_raw_single]
  simp

/-- C5, amended: for every token produced by `GenerateTokens` whose kind is
neither the raw-string kind nor EOF, reclassifying its literal with the
classifier yields exactly the kind stored on the token. -/
theorem classify_idempotent (input : List Char)
    (commentPrefixes : List (List Char)) (t : Token)
    (ht : t ∈ GenerateTokens input commentPrefixes)
    (hstr : t.type ≠ .STRING) (heof : t.type ≠ .EOF) :
    classifyKind t.literal = some t.type := by
  rw [GenerateTokens_eq] at ht
  rcases List.mem_append.mp ht with hh | hh
  · rcases (scanLines_sound _ _ 0 0 t hh).2 with h1 | h2
    · exact absurd h1 hstr
    · exact h2.1
  · simp only [List.mem_singleton] at hh
    subst hh
    exact absurd rfl heof

/-- C5, witness: the amended theorem applied to the `Illegal` token of the
run on `"@"`. -/
theorem classify_idempotent_witness :
    classifyKind ['@'] = some TokenType.ILLEGAL := by
  exact classify_idempotent ['@'] []
    { type := .ILLEGAL, literal := ['@'], Start := 0, End := 1, Line := 0 }
    (by rw [eval_atSign]; simp) (by decide) (by decide)

/-- C6: For every non-empty literal, the classifier returns the kind of an
exact match in the operator/punctuation symbol table when one exists, and
otherwise decides by the first character alone (digit: INT, letter or
underscore: IDENT, anything else: ILLEGAL); and the input `"@"` tokenizes
to one Illegal token with literal `"@"` followed by EOF. -/
theorem classifier_first_char (lit : List Char) (c : Char) (rest : List Char)
    (hl : lit = c :: rest) :
    ((∃ k, symbolKind lit = some k ∧ classifyKind lit = some k) ∨
      (symbolKind lit = none ∧
        classifyKind lit = some (if isDigit c then .INT
          else if isLetter c || isUnderscore c then .IDENT else .ILLEGAL))) ∧
    GenerateTokens ['@'] [] =
      [{ type := .ILLEGAL, literal := ['@'], Start := 0, End := 1, Line := 0 },
        { type := .EOF, literal := [], Start := 1, End := 1, Line := 1 }] := by
  constructor
  · subst hl
    unfold classifyKind
    cases hs : symbolKind (c :: rest) with
    | some k => exact Or.inl ⟨k, rfl, rfl⟩
    | none => exact Or.inr ⟨rfl, rfl⟩
  · exact eval_atSign

/-- C6, witness: the theorem applied to the literal `"x"`. -/
theorem classifier_first_char_witness :
    ((∃ k, symbolKind ['x'] = some k ∧ classifyKind ['x'] = some k) ∨
      (symbolKind ['x'] = none ∧
        classifyKind ['x'] = some (if isDigit 'x' then .INT
          else if isLetter 'x' || isUnderscore 'x' then .IDENT else .ILLEGAL))) ∧
    GenerateTokens ['@'] [] =
      [{ type := .ILLEGAL, literal := ['@'], Start := 0, End := 1, Line := 0 },
        { type := .EOF, literal := [], Start := 1, End := 1, Line := 1 }] :=
  classifier_first_char ['x'] 'x' [] rfl

/-- C7: When extraction starts at an operator character, it consumes the
two-character literal `"=="` exactly when the character is `=` and the next
character on the same line is also `=`; in every other case it consumes
exactly one character.  Hence `==` is never split into two `=` tokens, and
a lone `=` never produces the `==` literal. -/
theorem operator_lookahead (line : List Char) (col : Nat)
    (h : col < line.length) (hop : isOperator (line.getD col ' ') = true) :
    ((line.getD col ' ' = '=' ∧ col + 1 < line.length ∧
        line.getD (col + 1) ' ' = '=') →
      generateLiteral line col = (['=', '='], col + 2)) ∧
    (¬(line.getD col ' ' = '=' ∧ col + 1 < line.length ∧
        line.getD (col + 1) ' ' = '=') →
      generateLiteral line col = ([line.getD col ' '], col + 1)) := by
  constructor
  · rintro ⟨heq, hlt2, hnext⟩
    unfold generateLiteral
    rw [heq, hnext]
    simp [hlt2, isDigit, isLetter, isUnderscore, isOperator, isPunctuation]
  · intro hncond
    have hop2 := hop
    simp only [isOperator, decide_eq_true_eq] at hop2
    unfold generateLiteral
    rcases hop2 with hc|hc|hc|hc|hc|hc|hc|hc|hc|hc|hc|hc
    · rw [hc]; simp [isDigit, isLetter, isUnderscore, isOperator, isPunctuation]
    · rw [hc]; simp [isDigit, isLetter, isUnderscore, isOperator, isPunctuation]
    · rw [hc]; simp [isDigit, isLetter, isUnderscore, isOperator, isPunctuation]
    · rw [hc]; simp [isDigit, isLetter, isUnderscore, isOperator, isPunctuation]
    · rw [hc]; simp [isDigit, isLetter, isUnderscore, isOperator, isPunctuation]
    · rw [hc] at hncond ⊢
      simp only [isDigit, isLetter, isUnderscore, isOperator, isPunctuation]
      simp
      intro h2 h3
      have h3b : line.getD (col + 1) ' ' = '=' := by
        rw [List.getD_eq_getElem?_getD]
        exact h3
      exact hncond ⟨rfl, h2, h3b⟩
    · rw [hc]; simp [isDigit, isLetter, isUnderscore, isOperator, isPunctuation]
    · rw [hc]; simp [isDigit, isLetter, isUnderscore, isOperator, isPunctuation]
    · rw [hc]; simp [isDigit, isLetter, isUnderscore, isOperator, isPunctuation]
    · rw [hc]; simp [isDigit, isLetter, isUnderscore, isOperator, isPunctuation]
    · rw [hc]; simp [isDigit, isLetter, isUnderscore, isOperator, isPunctuation]
    · rw [hc]; simp [isDigit, isLetter, isUnderscore, isOperator, isPunctuation]

/-- C7, witness: the lookahead rule evaluated on `"=="` and on `"=+"`. -/
theorem operator_lookahead_witness :
    generateLiteral ['=', '='] 0 = (['=', '='], 2) ∧
    generateLiteral ['=', '+'] 0 = (['='], 1) := by
  constructor
  · exact (operator_lookahead ['=', '='] 0 (by decide) (by decide)).1
      ⟨rfl, by decide, rfl⟩
  · exact (operator_lookahead ['=', '+'] 0 (by decide) (by decide)).2 (by decide)

/-- C8: A line whose trimmed text begins with a configured comment prefix
is skipped whole (it contributes zero tokens and only the line cursor
advances); the prefix test is a literal string-prefix test on the trimmed
line; an empty or whitespace-only line yields no tokens; and with an empty
prefix list no line is ever treated as a comment. -/
theorem comment_line_policy :
    (∀ (commentPrefixes : List (List Char)) (line : List Char),
      shouldSkipLine commentPrefixes line = true ↔
        ∃ p ∈ commentPrefixes, p.isPrefixOf (trimSpace line) = true) ∧
    (∀ (commentPrefixes lines : List (List Char)) (lp col : Nat),
      lp < lines.length →
      shouldSkipLine commentPrefixes (lines.getD lp []) = true →
      scanLines commentPrefixes lines lp col =
        scanLines commentPrefixes lines (lp + 1) col) ∧
    (∀ (lines : List (List Char)) (line : List Char) (lp col : Nat),
      (∀ ch ∈ line, isWhitespace ch = true) →
      (lineTokens lines line lp col).1 = []) ∧
    (∀ line : List Char, shouldSkipLine [] line = false) := by
  refine ⟨?_, scanLines_skip, lineTokens_all_ws, fun line => rfl⟩
  intro cps line
  simp [shouldSkipLine, List.any_eq_true]

/-- C8, witness: a line skipped for the prefix `"#"`, a whitespace-only
line, and the empty prefix list. -/
theorem comment_line_policy_witness :
    (shouldSkipLine [['#']] ['#', 'a'] = true ↔
      ∃ p ∈ [(['#'] : List Char)], p.isPrefixOf (trimSpace ['#', 'a']) = true) ∧
    scanLines [['#']] [['#', 'a']] 0 0 = scanLines [['#']] [['#', 'a']] 1 0 ∧
    (lineTokens [] [' '] 0 0).1 = [] ∧
    shouldSkipLine [] ['x'] = false := by
  refine ⟨comment_line_policy.1 [['#']] ['#', 'a'], ?_, ?_, comment_line_policy.2.2.2 ['x']⟩
  · exact comment_line_policy.2.1 [['#']] [['#', 'a']] 0 0 (by decide) (by decide)
  · exact comment_line_policy.2.2.1 [] [' '] 0 0 (by decide)

/-- C9: A single- or double-quoted string is consumed entirely within the
line it starts on (its literal is a slice of that line, the cursor never
passes the line end, and an unterminated quote consumes exactly to the end
of the line); a backtick raw string's token is emitted with its `Line`
equal to the line of the opening backtick, and such a string may span
several physical lines. -/
theorem string_modes :
    (∀ (line : List Char) (col : Nat), col < line.length →
      line.getD col ' ' = '"' ∨ line.getD col ' ' = '\'' →
      (generateLiteral line col).2 ≤ line.length ∧
      (generateLiteral line col).1 =
        (line.drop col).take ((generateLiteral line col).2 - col) ∧
      (line.getD col ' ' ∉ line.drop (col + 1) →
        (generateLiteral line col).2 = line.length)) ∧
    (∀ (lines : List (List Char)) (line : List Char) (lp col : Nat),
      col < line.length → line.getD col ' ' = '`' →
      ∃ t ts, (lineTokens lines line lp col).1 = t :: ts ∧
        t.type = .STRING ∧ t.Line = lp) ∧
    (GenerateTokens ['`', 'a', '\n', 'b', '`'] []).head? =
      some ⟨.STRING, ['`', 'a', '\n', 'b', '`'], 0, 2, 0⟩ := by
  refine ⟨?_, ?_, ?_⟩
  · intro line col hlt hq
    unfold generateLiteral
    rw [if_pos hq]
    dsimp only
    refine ⟨?_, ?_, ?_⟩
    · have hqle := quoteScanLen_le (line.drop (col + 1)) (line.getD col ' ')
      rw [List.length_drop] at hqle
      omega
    · congr 1
      omega
    · intro hnot
      rw [quoteScanLen_all _ _ hnot, List.length_drop]
      omega
  · intro lines line lp col hlt htick
    rw [lineTokens_tick lines line lp col hlt htick]
    exact ⟨_, _, rfl, rfl, rfl⟩
  · rw [eval_raw_span]
    rfl

/-- C9, witness: the quoted-string clause on the unterminated quote
`"\u0022hi"` and the raw-string clause on a backtick line. -/
theorem string_modes_witness :
    (generateLiteral ['"', 'h', 'i'] 0).2 ≤ 3 ∧
    (generateLiteral ['"', 'h', 'i'] 0).2 = 3 ∧
    (∃ t ts, (lineTokens [['`', 'a']] ['`', 'a'] 0 0).1 = t :: ts ∧
      t.type = .STRING ∧ t.Line = 0) := by
  have h1 := string_modes.1 ['"', 'h', 'i'] 0 (by decide) (Or.inl rfl)
  have h2 := string_modes.2.1 [['`', 'a']] ['`', 'a'] 0 0 (by decide) (by decide)
  exact ⟨h1.1, h1.2.2 (by decide), h2⟩

/-- C10: `GenerateNewToken` fails (indexes out of range in its default
branch) exactly on the empty literal; every literal whose whitespace-trim
is non-empty is classified successfully, which is the guard used at the
call site in `GenerateTokens`; and every literal extracted by
`generateLiteral` from inside a line is non-empty. -/
theorem generateNewToken_total (lit : List Char) (s e l : Nat) :
    (GenerateNewToken lit s e l = none ↔ lit = []) ∧
    (trimSpace lit ≠ [] → ∃ t, GenerateNewToken lit s e l = some t) ∧
    (∀ (line : List Char) (col : Nat), col < line.length →
      (generateLiteral line col).1 ≠ []) := by
  have hiff : GenerateNewToken lit s e l = none ↔ lit = [] := by
    constructor
    · intro h
      unfold GenerateNewToken at h
      cases hk : classifyKind lit with
      | some k => simp [hk] at h
      | none =>
        unfold classifyKind at hk
        cases hs : symbolKind lit with
        | some k2 => simp [hs] at hk
        | none =>
          simp only [hs] at hk
          cases lit with
          | nil => rfl
          | cons c cs => simp at hk
    · intro h
      subst h
      rfl
  refine ⟨hiff, ?_, generateLiteral_fst_ne_nil⟩
  intro htrim
  cases hg : GenerateNewToken lit s e l with
  | none =>
    exfalso
    apply htrim
    rw [hiff.mp hg]
    rfl
  | some t => exact ⟨t, rfl⟩

/-- C10, witness: the theorem applied to the literal `"x"`. -/
theorem generateNewToken_total_witness :
    (GenerateNewToken ['x'] 0 1 0 = none ↔ (['x'] : List Char) = []) ∧
    (∃ t, GenerateNewToken ['x'] 0 1 0 = some t) ∧
    (generateLiteral ['x'] 0).1 ≠ [] := by
  have h := generateNewToken_total ['x'] 0 1 0
  exact ⟨h.1, h.2.1 (by decide), h.2.2 ['x'] 0 (by decide)⟩

/-- C2: On the input `"\u0060a\n\u0060xyz"` with no comment prefixes, the
characters `x`, `y`, `z` are non-whitespace, lie on no comment line, and
yet appear in no token literal: the tail of the line on which a multi-line
raw string closes is dropped, because scanning resumes against the stale
line the string started on. -/
theorem dropped_char_eval :
    ('x' ∈ (['`', 'a', '\n', '`', 'x', 'y', 'z'] : List Char)) ∧
    isWhitespace 'x' = false ∧
    (splitOnNL ['`', 'a', '\n', '`', 'x', 'y', 'z']).countP
      (fun l => shouldSkipLine [] l) = 0 ∧
    (GenerateTokens ['`', 'a', '\n', '`', 'x', 'y', 'z'] []).countP
      (fun t => decide ('x' ∈ t.literal)) = 0 := by
  refine ⟨by decide, by decide, by decide, ?_⟩
  rw [eval_dropx]
  decide

/-- C3: On the input `"\u0060multi\nline\u0060"` with no prefixes, the code
returns three tokens, not two: the raw-string token (spanning both lines,
with Line 0), then a spurious `IDENT "i"` token re-read from the stale
first line, then EOF. -/
theorem multiline_backtick_eval :
    GenerateTokens ['`', 'm', 'u', 'l', 't', 'i', '\n', 'l', 'i', 'n', 'e', '`'] [] =
      [{ type := .STRING,
         literal := ['`', 'm', 'u', 'l', 't', 'i', '\n', 'l', 'i', 'n', 'e', '`'],
         Start := 0, End := 5, Line := 0 },
        { type := .IDENT, literal := ['i'], Start := 5, End := 6, Line := 1 },
        { type := .EOF, literal := [], Start := 6, End := 6, Line := 2 }] ∧
    (GenerateTokens ['`', 'm', 'u', 'l', 't', 'i', '\n', 'l', 'i', 'n', 'e', '`']
      []).length = 3 := by
  have h : GenerateTokens ['`', 'm', 'u', 'l', 't', 'i', '\n', 'l', 'i', 'n', 'e', '`'] [] =
      [{ type := .STRING,
         literal := ['`', 'm', 'u', 'l', 't', 'i', '\n', 'l', 'i', 'n', 'e', '`'],
         Start := 0, End := 5, Line := 0 },
        { type := .IDENT, literal := ['i'], Start := 5, End := 6, Line := 1 },
        { type := .EOF, literal := [], Start := 6, End := 6, Line := 2 }] :=
    GenerateTokensF_sound 16 _ _ _ rfl
  exact ⟨h, by simp [h]⟩

end Drasken
